import Mathlib

/-!
Verification of the type-mapping and proto-file-generation core of
`scripts/generate_proto.py`.

The Python functions are shallowly embedded as Lean functions:

* `type_mapping`           — the scalar lookup dict (an association list here);
* `parse_array_type`       — `re.match(r"^ARRAY<(.+)>$", s.upper())` + `.strip()`;
* `parse_map_type`         — `re.match(r"^MAP<(.+),(.+)>$", s.upper())` + `.strip()`;
* `get_proto_field_info`   — the type mapper (`ValueError` becomes `Except.error`);
* `generate_proto_file`    — the emitter; file writing is modelled by returning
  the full text that the Python code passes to `f.write` (the write happens
  only after every column has been mapped, so an error produces no text).

Python regex semantics modelled explicitly: `.` does not match a newline, and
`$` matches at the end of the string or just before one trailing newline
(`chopNl`).  The greedy groups of `^MAP<(.+),(.+)>$` split the bracket content
at the LAST comma that leaves both groups non-empty (`splitLastComma`).
`str.upper` is modelled on the basic-latin range (`pyUpperChar`), matching the
inputs of the source grammar; `str.strip` is modelled with ASCII whitespace.
-/

/-- Uppercase one character, basic-latin range: models `str.upper` per char. -/
def pyUpperChar (c : Char) : Char :=
  if 97 ≤ c.toNat ∧ c.toNat ≤ 122 then Char.ofNat (c.toNat - 32) else c

/-- Models `s.upper()`. -/
def pyUpper (s : String) : String := ⟨s.data.map pyUpperChar⟩

/-- Models `s.strip()` (remove leading and trailing whitespace). -/
def pyStrip (s : String) : String :=
  ⟨((s.data.dropWhile Char.isWhitespace).reverse.dropWhile Char.isWhitespace).reverse⟩

/-- Models `s.startswith(p)` / an anchored literal prefix in a regex. -/
def startsWithL (s p : String) : Bool := p.data.isPrefixOf s.data

/-- Does `s` end with the literal `p`? -/
def endsWithL (s p : String) : Bool := p.data.reverse.isPrefixOf s.data.reverse

/-- Drop the first `n` characters. -/
def dropL (s : String) (n : Nat) : String := ⟨s.data.drop n⟩

/-- Drop the last `n` characters. -/
def dropRightL (s : String) (n : Nat) : String := ⟨s.data.take (s.data.length - n)⟩

/-- `$` in a Python regex also matches just before one trailing newline:
`chopNl` removes that optional trailing newline before anchored matching. -/
def chopNl (u : String) : String := if endsWithL u "\n" then dropRightL u 1 else u

/-- `true` iff no character of `s` is a newline (the characters `.` can match). -/
def noNewline (s : String) : Bool := s.data.all (fun c => !(c == '\n'))

/-- `true` iff no character of `s` equals `c`. -/
def noChar (s : String) (c : Char) : Bool := s.data.all (fun d => !(d == c))

/-- Split a character list at the last comma that leaves a non-empty tail:
the split the greedy groups of `(.+),(.+)` produce.  The head part may come
back empty; the caller rejects that case (group 1 must be non-empty). -/
def splitLastComma : List Char → Option (List Char × List Char)
  | [] => none
  | c :: cs =>
    match splitLastComma cs with
    | some (k, v) => some (c :: k, v)
    | none => if c = ',' then (if cs = [] then none else some ([], cs)) else none

/-- The scalar lookup table `type_mapping` of `get_proto_field_info`,
in source order. -/
def type_mapping : List (String × String) :=
  [("SMALLINT", "int32"),
   ("INT", "int32"),
   ("STRING", "string"),
   ("FLOAT", "float"),
   ("BIGINT", "int64"),
   ("LONG", "int64"),
   ("SHORT", "int32"),
   ("DOUBLE", "double"),
   ("BOOLEAN", "bool"),
   ("BINARY", "bytes"),
   ("DATE", "int32"),
   ("TIMESTAMP", "int64")]

/-- Models `dict.get` on an association list with distinct keys. -/
def lookupTable : List (String × String) → String → Option String
  | [], _ => none
  | (k, v) :: rest, s => if s = k then some v else lookupTable rest s

/-- Models `parse_array_type`: `re.match(r"^ARRAY<(.+)>$", column_type.upper())`,
returning the stripped group. -/
def parse_array_type (s : String) : Option String :=
  if startsWithL (chopNl (pyUpper s)) "ARRAY<" then
    if endsWithL (chopNl (pyUpper s)) ">" then
      if (dropRightL (dropL (chopNl (pyUpper s)) 6) 1).data = [] then none
      else if noNewline (dropRightL (dropL (chopNl (pyUpper s)) 6) 1) then
        some (pyStrip (dropRightL (dropL (chopNl (pyUpper s)) 6) 1))
      else none
    else none
  else none

/-- Models `parse_map_type`: `re.match(r"^MAP<(.+),(.+)>$", column_type.upper())`,
returning the stripped groups.  The greedy first group makes the split land on
the last comma that leaves a non-empty second group. -/
def parse_map_type (s : String) : Option (String × String) :=
  if startsWithL (chopNl (pyUpper s)) "MAP<" then
    if endsWithL (chopNl (pyUpper s)) ">" then
      if noNewline (dropRightL (dropL (chopNl (pyUpper s)) 4) 1) then
        match splitLastComma (dropRightL (dropL (chopNl (pyUpper s)) 4) 1).data with
        | some (k, v) =>
          if k = [] then none else some (pyStrip ⟨k⟩, pyStrip ⟨v⟩)
        | none => none
      else none
    else none
  else none

/-- Models `get_proto_field_info` (the spec's `map_type`).  `raise ValueError`
becomes `Except.error` carrying the formatted message. -/
def get_proto_field_info (column_type : String) (nullable : Bool) :
    Except String (String × String) :=
  match lookupTable type_mapping (pyUpper column_type) with
  | some proto_type => .ok (if nullable then "optional" else "required", proto_type)
  | none =>
    if startsWithL (pyUpper column_type) "VARCHAR" then
      .ok (if nullable then "optional" else "required", "string")
    else
      match parse_array_type column_type with
      | some element_type =>
        match lookupTable type_mapping (pyUpper element_type) with
        | some element_proto_type => .ok ("repeated", element_proto_type)
        | none => .error ("Unsupported array element type: " ++ element_type)
      | none =>
        match parse_map_type column_type with
        | some (key_type, value_type) =>
          match lookupTable type_mapping (pyUpper key_type) with
          | none => .error ("Unsupported map key type: " ++ key_type)
          | some key_proto_type =>
            match lookupTable type_mapping (pyUpper value_type) with
            | none => .error ("Unsupported map value type: " ++ value_type)
            | some value_proto_type =>
              .ok ("", "map<" ++ key_proto_type ++ ", " ++ value_proto_type ++ ">")
        | none => .error ("Unsupported column type: " ++ column_type)

/-- One fetched column, as `extract_columns` returns it. -/
structure Column where
  name : String
  type_text : String
  nullable : Bool
deriving DecidableEq

/-- One emitted field line (`f"    {field_modifier} {proto_type} {field_name} = {idx};"`,
the modifier token dropped when it is the empty string). -/
def renderField (idx : Nat) (name modifier ptype : String) : String :=
  if modifier = "" then
    "    " ++ ptype ++ " " ++ name ++ " = " ++ toString idx ++ ";"
  else
    "    " ++ modifier ++ " " ++ ptype ++ " " ++ name ++ " = " ++ toString idx ++ ";"

/-- Map one column and render its field line. -/
def fieldLine (idx : Nat) (col : Column) : Except String String :=
  match get_proto_field_info col.type_text col.nullable with
  | .error e => .error e
  | .ok (m, t) => .ok (renderField idx col.name m t)

/-- The loop of `generate_proto_file`: map the columns in order, tagging them
`k, k+1, ...`; the first failing column aborts everything. -/
def fieldLines : List Column → Nat → Except String (List String)
  | [], _ => .ok []
  | c :: cs, k =>
    match fieldLine k c with
    | .error e => .error e
    | .ok l =>
      match fieldLines cs (k + 1) with
      | .error e => .error e
      | .ok ls => .ok (l :: ls)

/-- Models `"\n".join(lines)`. -/
def joinLines : List String → String
  | [] => ""
  | [l] => l
  | l :: ls => l ++ "\n" ++ joinLines ls

/-- Models `generate_proto_file`: the returned string is exactly the text the
Python code writes to the output file; an error means nothing is written. -/
def generate_proto_file (message_name : String) (columns : List Column) :
    Except String String :=
  match fieldLines columns 1 with
  | .error e => .error e
  | .ok ls =>
    .ok (joinLines (["syntax = \"proto2\";", "", "message " ++ message_name ++ " \x7b"]
      ++ ls ++ ["\x7d", ""]))

/-- Spec-side rendering helper: each line followed by one newline. -/
def concatNl : List String → String
  | [] => ""
  | l :: ls => l ++ "\n" ++ concatNl ls

/-- All columns mapped in order; the first failure wins. -/
def mapColumns : List Column → Except String (List (String × String))
  | [] => .ok []
  | c :: cs =>
    match get_proto_field_info c.type_text c.nullable with
    | .error e => .error e
    | .ok d =>
      match mapColumns cs with
      | .error e => .error e
      | .ok ds => .ok (d :: ds)

/-- Spec-side list of rendered lines for already-mapped columns, tags from `k`. -/
def renderAll : List Column → List (String × String) → Nat → List String
  | c :: cs, d :: ds, k => renderField k c.name d.1 d.2 :: renderAll cs ds (k + 1)
  | _, _, _ => []

/-- Claim C1: every key of the scalar table maps, non-nullable, to REQUIRED with
exactly the documented target type, and, nullable, to OPTIONAL with the same
target type. -/
theorem claim_C1 :
    get_proto_field_info "SMALLINT" false = .ok ("required", "int32") ∧
    get_proto_field_info "SMALLINT" true = .ok ("optional", "int32") ∧
    get_proto_field_info "SHORT" false = .ok ("required", "int32") ∧
    get_proto_field_info "SHORT" true = .ok ("optional", "int32") ∧
    get_proto_field_info "INT" false = .ok ("required", "int32") ∧
    get_proto_field_info "INT" true = .ok ("optional", "int32") ∧
    get_proto_field_info "STRING" false = .ok ("required", "string") ∧
    get_proto_field_info "STRING" true = .ok ("optional", "string") ∧
    get_proto_field_info "FLOAT" false = .ok ("required", "float") ∧
    get_proto_field_info "FLOAT" true = .ok ("optional", "float") ∧
    get_proto_field_info "BIGINT" false = .ok ("required", "int64") ∧
    get_proto_field_info "BIGINT" true = .ok ("optional", "int64") ∧
    get_proto_field_info "LONG" false = .ok ("required", "int64") ∧
    get_proto_field_info "LONG" true = .ok ("optional", "int64") ∧
    get_proto_field_info "DOUBLE" false = .ok ("required", "double") ∧
    get_proto_field_info "DOUBLE" true = .ok ("optional", "double") ∧
    get_proto_field_info "BOOLEAN" false = .ok ("required", "bool") ∧
    get_proto_field_info "BOOLEAN" true = .ok ("optional", "bool") ∧
    get_proto_field_info "BINARY" false = .ok ("required", "bytes") ∧
    get_proto_field_info "BINARY" true = .ok ("optional", "bytes") ∧
    get_proto_field_info "DATE" false = .ok ("required", "int32") ∧
    get_proto_field_info "DATE" true = .ok ("optional", "int32") ∧
    get_proto_field_info "TIMESTAMP" false = .ok ("required", "int64") ∧
    get_proto_field_info "TIMESTAMP" true = .ok ("optional", "int64") :=
  ⟨rfl, rfl, rfl, rfl, rfl, rfl, rfl, rfl, rfl, rfl, rfl, rfl,
   rfl, rfl, rfl, rfl, rfl, rfl, rfl, rfl, rfl, rfl, rfl, rfl⟩

/-! ### Basic string and character lemmas -/

lemma strExt {s t : String} (h : s.data = t.data) : s = t := by
  cases s; cases t; cases h; rfl

lemma str_data_append (a b : String) : (a ++ b).data = a.data ++ b.data := by
  cases a; cases b; rfl

lemma pyUpper_append (a b : String) : pyUpper (a ++ b) = pyUpper a ++ pyUpper b := by
  apply strExt
  show (a ++ b).data.map pyUpperChar = (pyUpper a ++ pyUpper b).data
  rw [str_data_append, str_data_append, List.map_append]
  rfl

lemma toNat_ofNat_valid (n : Nat) (h : n.isValidChar) : (Char.ofNat n).toNat = n := by
  rw [Char.ofNat, dif_pos h]; rfl

lemma pyUpperChar_idem (c : Char) : pyUpperChar (pyUpperChar c) = pyUpperChar c := by
  unfold pyUpperChar
  by_cases h : 97 ≤ c.toNat ∧ c.toNat ≤ 122
  · have hv : Nat.isValidChar (c.toNat - 32) := Or.inl (by omega)
    rw [if_pos h, toNat_ofNat_valid _ hv, if_neg (by omega)]
  · rw [if_neg h, if_neg h]

lemma pyUpper_idem (s : String) : pyUpper (pyUpper s) = pyUpper s := by
  apply strExt
  show (s.data.map pyUpperChar).map pyUpperChar = s.data.map pyUpperChar
  rw [List.map_map]
  exact List.map_congr_left (fun c _ => pyUpperChar_idem c)

lemma isPrefixOf_cons_ne {a b : Char} (as bs : List Char) (h : (a == b) = false) :
    ((a :: as).isPrefixOf (b :: bs)) = false := by
  simp [List.isPrefixOf, h]

lemma head_of_isPrefixOf {c : Char} {cs l : List Char} (h : ((c :: cs).isPrefixOf l) = true) :
    l.head? = some c := by
  cases l with
  | nil => simp [List.isPrefixOf] at h
  | cons d ds =>
    simp only [List.isPrefixOf, Bool.and_eq_true] at h
    have hcd : c = d := eq_of_beq h.1
    rw [hcd]; rfl

lemma isPrefixOf_append (l r : List Char) : (l.isPrefixOf (l ++ r)) = true := by
  induction l with
  | nil => simp [List.isPrefixOf]
  | cons a as ih => simp [List.isPrefixOf, ih]

lemma str_ne_of_head {s t : String} {c d : Char} (hs : s.data.head? = some c)
    (ht : t.data.head? = some d) (h : (c == d) = false) : s ≠ t := by
  intro he
  rw [he, ht] at hs
  injection hs with h2
  rw [h2] at h
  simp at h

lemma head_of_take {l : List Char} {n : Nat} {c : Char} {r : List Char}
    (h : l.take n = c :: r) : l.head? = some c := by
  cases l with
  | nil => simp at h
  | cons d ds =>
    cases n with
    | zero => simp at h
    | succ m =>
      rw [List.take_succ_cons] at h
      injection h with h1 _
      rw [h1]; rfl

lemma chopNl_head {u : String} {c : Char} {r : List Char} (h : (chopNl u).data = c :: r) :
    u.data.head? = some c := by
  unfold chopNl at h
  split at h
  · exact head_of_take h
  · rw [h]; rfl

/-! ### Lemmas about the scalar lookup table -/

lemma lookupTable_none_of_head (s : String) (c : Char) (hs : s.data.head? = some c)
    (h1 : (c == 'S') = false) (h2 : (c == 'I') = false) (h3 : (c == 'F') = false)
    (h4 : (c == 'B') = false) (h5 : (c == 'L') = false) (h6 : (c == 'D') = false)
    (h7 : (c == 'T') = false) :
    lookupTable type_mapping s = none := by
  have k1 : s ≠ "SMALLINT" :=
    str_ne_of_head hs (show ("SMALLINT" : String).data.head? = some 'S' from rfl) h1
  have k2 : s ≠ "INT" :=
    str_ne_of_head hs (show ("INT" : String).data.head? = some 'I' from rfl) h2
  have k3 : s ≠ "STRING" :=
    str_ne_of_head hs (show ("STRING" : String).data.head? = some 'S' from rfl) h1
  have k4 : s ≠ "FLOAT" :=
    str_ne_of_head hs (show ("FLOAT" : String).data.head? = some 'F' from rfl) h3
  have k5 : s ≠ "BIGINT" :=
    str_ne_of_head hs (show ("BIGINT" : String).data.head? = some 'B' from rfl) h4
  have k6 : s ≠ "LONG" :=
    str_ne_of_head hs (show ("LONG" : String).data.head? = some 'L' from rfl) h5
  have k7 : s ≠ "SHORT" :=
    str_ne_of_head hs (show ("SHORT" : String).data.head? = some 'S' from rfl) h1
  have k8 : s ≠ "DOUBLE" :=
    str_ne_of_head hs (show ("DOUBLE" : String).data.head? = some 'D' from rfl) h6
  have k9 : s ≠ "BOOLEAN" :=
    str_ne_of_head hs (show ("BOOLEAN" : String).data.head? = some 'B' from rfl) h4
  have k10 : s ≠ "BINARY" :=
    str_ne_of_head hs (show ("BINARY" : String).data.head? = some 'B' from rfl) h4
  have k11 : s ≠ "DATE" :=
    str_ne_of_head hs (show ("DATE" : String).data.head? = some 'D' from rfl) h6
  have k12 : s ≠ "TIMESTAMP" :=
    str_ne_of_head hs (show ("TIMESTAMP" : String).data.head? = some 'T' from rfl) h7
  simp [lookupTable, type_mapping, k1, k2, k3, k4, k5, k6, k7, k8, k9, k10, k11, k12]

/-! ### Extracting facts from successful regex matches -/

lemma parse_array_some_starts {s e : String} (h : parse_array_type s = some e) :
    startsWithL (chopNl (pyUpper s)) "ARRAY<" = true := by
  by_cases hc : startsWithL (chopNl (pyUpper s)) "ARRAY<" = true
  · exact hc
  · unfold parse_array_type at h
    rw [if_neg hc] at h
    exact absurd h (by simp)

lemma parse_map_some_starts {s : String} {kv : String × String}
    (h : parse_map_type s = some kv) :
    startsWithL (chopNl (pyUpper s)) "MAP<" = true := by
  by_cases hc : startsWithL (chopNl (pyUpper s)) "MAP<" = true
  · exact hc
  · unfold parse_map_type at h
    rw [if_neg hc] at h
    exact absurd h (by simp)

lemma upper_head_of_chop_starts {s : String} {c : Char} {cs : List Char}
    (h : ((c :: cs).isPrefixOf (chopNl (pyUpper s)).data) = true) :
    (pyUpper s).data.head? = some c := by
  have h1 := head_of_isPrefixOf h
  cases hd : (chopNl (pyUpper s)).data with
  | nil => rw [hd] at h1; simp at h1
  | cons d ds =>
    rw [hd] at h1
    injection h1 with h2
    exact chopNl_head (show (chopNl (pyUpper s)).data = c :: ds by rw [hd, h2])

lemma varchar_false_of_head {s : String} {c : Char}
    (hh : (pyUpper s).data.head? = some c) (hc : (('V' == c)) = false) :
    startsWithL (pyUpper s) "VARCHAR" = false := by
  cases hu : (pyUpper s).data with
  | nil => rw [hu] at hh; simp at hh
  | cons d ds =>
    rw [hu] at hh
    injection hh with h2
    unfold startsWithL
    rw [hu, h2]
    exact isPrefixOf_cons_ne _ _ hc

lemma array_guards {s e : String} (h : parse_array_type s = some e) :
    lookupTable type_mapping (pyUpper s) = none ∧
    startsWithL (pyUpper s) "VARCHAR" = false := by
  have hp := parse_array_some_starts h
  have hh : (pyUpper s).data.head? = some 'A' :=
    @upper_head_of_chop_starts s 'A' ("RRAY<".data) hp
  exact ⟨lookupTable_none_of_head _ 'A' hh rfl rfl rfl rfl rfl rfl rfl,
    varchar_false_of_head hh rfl⟩

lemma map_guards {s : String} {k v : String} (h : parse_map_type s = some (k, v)) :
    lookupTable type_mapping (pyUpper s) = none ∧
    startsWithL (pyUpper s) "VARCHAR" = false ∧
    parse_array_type s = none := by
  have hp := parse_map_some_starts h
  have hh : (pyUpper s).data.head? = some 'M' :=
    @upper_head_of_chop_starts s 'M' ("AP<".data) hp
  have hchop : (chopNl (pyUpper s)).data.head? = some 'M' :=
    @head_of_isPrefixOf 'M' ("AP<".data) _ hp
  refine ⟨lookupTable_none_of_head _ 'M' hh rfl rfl rfl rfl rfl rfl rfl,
    varchar_false_of_head hh rfl, ?_⟩
  cases hd : (chopNl (pyUpper s)).data with
  | nil => rw [hd] at hchop; simp at hchop
  | cons d ds =>
    rw [hd] at hchop
    injection hchop with h2
    have harr : startsWithL (chopNl (pyUpper s)) "ARRAY<" = false := by
      unfold startsWithL
      rw [hd, h2]
      exact isPrefixOf_cons_ne _ _ rfl
    unfold parse_array_type
    rw [if_neg (by rw [harr]; exact Bool.false_ne_true)]

/-! ### Branch lemmas for the type mapper -/

lemma get_scalar_branch {s t : String} (b : Bool)
    (h : lookupTable type_mapping (pyUpper s) = some t) :
    get_proto_field_info s b = .ok (if b then "optional" else "required", t) := by
  unfold get_proto_field_info
  rw [h]

lemma get_varchar_branch {s : String} (b : Bool)
    (hl : lookupTable type_mapping (pyUpper s) = none)
    (hv : startsWithL (pyUpper s) "VARCHAR" = true) :
    get_proto_field_info s b = .ok (if b then "optional" else "required", "string") := by
  unfold get_proto_field_info
  simp [hl, hv]

lemma get_array_branch {s e : String} (b : Bool) (h : parse_array_type s = some e) :
    get_proto_field_info s b =
      (match lookupTable type_mapping (pyUpper e) with
       | some t => .ok ("repeated", t)
       | none => .error ("Unsupported array element type: " ++ e)) := by
  obtain ⟨hl, hv⟩ := array_guards h
  unfold get_proto_field_info
  simp [hl, hv, h]

lemma get_map_branch {s k v : String} (b : Bool) (h : parse_map_type s = some (k, v)) :
    get_proto_field_info s b =
      (match lookupTable type_mapping (pyUpper k) with
       | none => .error ("Unsupported map key type: " ++ k)
       | some kt =>
         match lookupTable type_mapping (pyUpper v) with
         | none => .error ("Unsupported map value type: " ++ v)
         | some vt => .ok ("", "map<" ++ kt ++ ", " ++ vt ++ ">")) := by
  obtain ⟨hl, hv, ha⟩ := map_guards h
  unfold get_proto_field_info
  simp [hl, hv, ha, h]

lemma get_nomatch_branch {s : String} (b : Bool)
    (hl : lookupTable type_mapping (pyUpper s) = none)
    (hv : startsWithL (pyUpper s) "VARCHAR" = false)
    (ha : parse_array_type s = none) (hm : parse_map_type s = none) :
    get_proto_field_info s b = .error ("Unsupported column type: " ++ s) := by
  unfold get_proto_field_info
  simp [hl, hv, ha, hm]

lemma parse_array_type_pyUpper (s : String) :
    parse_array_type (pyUpper s) = parse_array_type s := by
  unfold parse_array_type; rw [pyUpper_idem]

lemma parse_map_type_pyUpper (s : String) :
    parse_map_type (pyUpper s) = parse_map_type s := by
  unfold parse_map_type; rw [pyUpper_idem]

/-- Claim C4: whenever the input matches the array form and the element type is
in the scalar table, the result is REPEATED with the mapped element type, for
both values of `nullable` — the `nullable` argument never affects an array
mapping. -/
theorem claim_C4 : ∀ (s e t : String) (b : Bool),
    parse_array_type s = some e →
    lookupTable type_mapping (pyUpper e) = some t →
    get_proto_field_info s b = .ok ("repeated", t) := by
  intro s e t b hp hl
  rw [get_array_branch b hp, hl]

/-- Witness for C4 at the claim's own instance `ARRAY<INT>`, `nullable = true`. -/
theorem claim_C4_witness :
    get_proto_field_info "ARRAY<INT>" true = .ok ("repeated", "int32") :=
  claim_C4 "ARRAY<INT>" "INT" "int32" true (by decide) (by decide)

/-- Claim C10: the variable-length-string check is a bare prefix test after the
scalar lookup: any input whose uppercase form starts with `VARCHAR` is never a
scalar-table key and maps to OPTIONAL/REQUIRED `string`, whatever follows the
prefix. -/
theorem claim_C10 : ∀ (s : String) (b : Bool),
    startsWithL (pyUpper s) "VARCHAR" = true →
    lookupTable type_mapping (pyUpper s) = none ∧
    get_proto_field_info s b = .ok (if b then "optional" else "required", "string") := by
  intro s b hv
  have hh : (pyUpper s).data.head? = some 'V' :=
    @head_of_isPrefixOf 'V' ("ARCHAR".data) _ hv
  have hl : lookupTable type_mapping (pyUpper s) = none :=
    lookupTable_none_of_head _ 'V' hh rfl rfl rfl rfl rfl rfl rfl
  exact ⟨hl, get_varchar_branch b hl hv⟩

/-- Witness for C10 at `VARCHARXYZ` (arbitrary trailing text, not `VARCHAR(n)`). -/
theorem claim_C10_witness :
    lookupTable type_mapping (pyUpper "VARCHARXYZ") = none ∧
    get_proto_field_info "VARCHARXYZ" true = .ok ("optional", "string") :=
  claim_C10 "VARCHARXYZ" true (by decide)

/-- Counterexample to claim C3 as stated: `ARRAY<VARCHAR(10)>` does NOT map to
`(REPEATED, string)` — it is rejected, because the array element is resolved
through the scalar table only, which has no `VARCHAR` entry. -/
theorem claim_C3_counterexample :
    get_proto_field_info "ARRAY<VARCHAR(10)>" false =
      .error "Unsupported array element type: VARCHAR(10)" ∧
    get_proto_field_info "ARRAY<VARCHAR(10)>" false ≠ .ok ("repeated", "string") :=
  ⟨rfl, fun h => nomatch h⟩

/-- Claim C3, amended: for `ARRAY<T>` with `T` in the variable-length string
family, `map_type` FAILS with `UnsupportedType` naming the inner type (for both
values of `nullable`): the inner text is resolved against the scalar table
alone, which does not contain the `VARCHAR` family. -/
theorem claim_C3 : ∀ (s e : String) (b : Bool),
    parse_array_type s = some e →
    startsWithL e "VARCHAR" = true →
    get_proto_field_info s b = .error ("Unsupported array element type: " ++ e) := by
  intro s e b hp hv
  have hh : e.data.head? = some 'V' :=
    @head_of_isPrefixOf 'V' ("ARCHAR".data) _ hv
  have hu : (pyUpper e).data.head? = some 'V' := by
    cases hd : e.data with
    | nil => rw [hd] at hh; simp at hh
    | cons d ds =>
      rw [hd] at hh
      injection hh with h2
      show (e.data.map pyUpperChar).head? = some 'V'
      rw [hd, h2]
      rfl
  have hl : lookupTable type_mapping (pyUpper e) = none :=
    lookupTable_none_of_head _ 'V' hu rfl rfl rfl rfl rfl rfl rfl
  rw [get_array_branch b hp, hl]

/-- Witness for the amended C3 at `ARRAY<VARCHAR(10)>`, `nullable = true`. -/
theorem claim_C3_witness :
    get_proto_field_info "ARRAY<VARCHAR(10)>" true =
      .error "Unsupported array element type: VARCHAR(10)" :=
  claim_C3 "ARRAY<VARCHAR(10)>" "VARCHAR(10)" true (by decide) (by decide)

/-- Claim C7: every non-resolving input fails with `UnsupportedType` naming the
offending type string — the inner type for a failed array element, whichever of
key/value failed for a map (key checked first), and the raw input when no form
matches. -/
theorem claim_C7 :
    (∀ (s e : String) (b : Bool),
       parse_array_type s = some e →
       lookupTable type_mapping (pyUpper e) = none →
       get_proto_field_info s b = .error ("Unsupported array element type: " ++ e)) ∧
    (∀ (s k v : String) (b : Bool),
       parse_map_type s = some (k, v) →
       (lookupTable type_mapping (pyUpper k) = none →
          get_proto_field_info s b = .error ("Unsupported map key type: " ++ k)) ∧
       (∀ kt : String, lookupTable type_mapping (pyUpper k) = some kt →
          lookupTable type_mapping (pyUpper v) = none →
          get_proto_field_info s b = .error ("Unsupported map value type: " ++ v))) ∧
    (∀ (s : String) (b : Bool),
       lookupTable type_mapping (pyUpper s) = none →
       startsWithL (pyUpper s) "VARCHAR" = false →
       parse_array_type s = none →
       parse_map_type s = none →
       get_proto_field_info s b = .error ("Unsupported column type: " ++ s)) := by
  refine ⟨?_, ?_, ?_⟩
  · intro s e b hp hl
    rw [get_array_branch b hp, hl]
  · intro s k v b hm
    constructor
    · intro hk
      rw [get_map_branch b hm, hk]
    · intro kt hk hv2
      rw [get_map_branch b hm, hk, hv2]
  · intro s b hl hv ha hm2
    exact get_nomatch_branch b hl hv ha hm2

/-- Witness for C7: the three failure shapes at the claim's example inputs. -/
theorem claim_C7_witness :
    get_proto_field_info "ARRAY<ARRAY<INT>>" false =
      .error "Unsupported array element type: ARRAY<INT>" ∧
    get_proto_field_info "MAP<FOO,INT>" false =
      .error "Unsupported map key type: FOO" ∧
    get_proto_field_info "MAP<STRING,BAR>" false =
      .error "Unsupported map value type: BAR" ∧
    get_proto_field_info "UNKNOWNTYPE" false =
      .error "Unsupported column type: UNKNOWNTYPE" ∧
    get_proto_field_info "DECIMAL(10,2)" true =
      .error "Unsupported column type: DECIMAL(10,2)" :=
  ⟨claim_C7.1 "ARRAY<ARRAY<INT>>" "ARRAY<INT>" false (by decide) (by decide),
   (claim_C7.2.1 "MAP<FOO,INT>" "FOO" "INT" false (by decide)).1 (by decide),
   (claim_C7.2.1 "MAP<STRING,BAR>" "STRING" "BAR" false (by decide)).2 "string"
     (by decide) (by decide),
   claim_C7.2.2 "UNKNOWNTYPE" false (by decide) (by decide) (by decide) (by decide),
   claim_C7.2.2 "DECIMAL(10,2)" true (by decide) (by decide) (by decide) (by decide)⟩

/-- Uppercasing the input first leaves every branch decision unchanged: the
result is identical, except that the final catch-all error names the raw input
(whose case differs).  Case analysis over the branch structure. -/
lemma get_pyUpper_cases (s : String) (b : Bool) :
    get_proto_field_info (pyUpper s) b = get_proto_field_info s b ∨
    ((∃ e, get_proto_field_info s b = .error e) ∧
     (∃ e, get_proto_field_info (pyUpper s) b = .error e)) := by
  cases hl : lookupTable type_mapping (pyUpper s) with
  | some t =>
    left
    rw [get_scalar_branch b hl,
      get_scalar_branch (s := pyUpper s) (t := t) b
        (show lookupTable type_mapping (pyUpper (pyUpper s)) = some t by
          rw [pyUpper_idem]; exact hl)]
  | none =>
    cases hv : startsWithL (pyUpper s) "VARCHAR" with
    | true =>
      left
      rw [get_varchar_branch b hl hv,
        get_varchar_branch (s := pyUpper s) b
          (show lookupTable type_mapping (pyUpper (pyUpper s)) = none by
            rw [pyUpper_idem]; exact hl)
          (show startsWithL (pyUpper (pyUpper s)) "VARCHAR" = true by
            rw [pyUpper_idem]; exact hv)]
    | false =>
      cases ha : parse_array_type s with
      | some e =>
        left
        rw [get_array_branch b ha,
          get_array_branch (s := pyUpper s) b
            (show parse_array_type (pyUpper s) = some e by
              rw [parse_array_type_pyUpper]; exact ha)]
      | none =>
        cases hm : parse_map_type s with
        | some kv =>
          obtain ⟨k, v⟩ := kv
          left
          rw [get_map_branch b hm,
            get_map_branch (s := pyUpper s) b
              (show parse_map_type (pyUpper s) = some (k, v) by
                rw [parse_map_type_pyUpper]; exact hm)]
        | none =>
          right
          refine ⟨⟨_, get_nomatch_branch b hl hv ha hm⟩,
            ⟨_, get_nomatch_branch (s := pyUpper s) b ?_ ?_ ?_ ?_⟩⟩
          · rw [pyUpper_idem]; exact hl
          · rw [pyUpper_idem]; exact hv
          · rw [parse_array_type_pyUpper]; exact ha
          · rw [parse_map_type_pyUpper]; exact hm

/-- Claim C9: keyword matching is case-insensitive — `map_type` succeeds with
the same value on an input and on its uppercased form, and fails on one exactly
when it fails on the other; field and message names, by contrast, reach the
emitted text verbatim. -/
theorem claim_C9 :
    (∀ (s : String) (b : Bool) (r : String × String),
       get_proto_field_info s b = .ok r ↔
       get_proto_field_info (pyUpper s) b = .ok r) ∧
    (∀ (s : String) (b : Bool),
       (∃ e, get_proto_field_info s b = .error e) ↔
       (∃ e, get_proto_field_info (pyUpper s) b = .error e)) ∧
    (∀ (i : Nat) (c : Column) (m t : String),
       get_proto_field_info c.type_text c.nullable = .ok (m, t) →
       fieldLine i c = .ok (renderField i c.name m t)) ∧
    (∀ (name : String) (cols : List Column) (ls : List String),
       fieldLines cols 1 = .ok ls →
       generate_proto_file name cols =
         .ok (joinLines (["syntax = \"proto2\";", "", "message " ++ name ++ " \x7b"]
           ++ ls ++ ["\x7d", ""]))) := by
  refine ⟨?_, ?_, ?_, ?_⟩
  · intro s b r
    rcases get_pyUpper_cases s b with h | ⟨⟨e1, h1⟩, ⟨e2, h2⟩⟩
    · rw [h]
    · constructor
      · intro hok
        rw [hok] at h1
        exact Except.noConfusion h1
      · intro hok
        rw [hok] at h2
        exact Except.noConfusion h2
  · intro s b
    rcases get_pyUpper_cases s b with h | ⟨⟨e1, h1⟩, ⟨e2, h2⟩⟩
    · rw [h]
    · exact ⟨fun _ => ⟨e2, h2⟩, fun _ => ⟨e1, h1⟩⟩
  · intro i c m t h
    unfold fieldLine
    rw [h]
  · intro name cols ls h
    unfold generate_proto_file
    rw [h]

/-- Witness for C9 at a lowercase input and a mixed-case field/message name. -/
theorem claim_C9_witness :
    (get_proto_field_info "array<int>" true = .ok ("repeated", "int32") ↔
     get_proto_field_info (pyUpper "array<int>") true = .ok ("repeated", "int32")) ∧
    fieldLine 1 ⟨"Id", "int", false⟩ = .ok (renderField 1 "Id" "required" "int32") ∧
    generate_proto_file "RoW" [] =
      .ok (joinLines (["syntax = \"proto2\";", "", "message " ++ "RoW" ++ " \x7b"]
        ++ [] ++ ["\x7d", ""])) :=
  ⟨claim_C9.1 "array<int>" true ("repeated", "int32"),
   claim_C9.2.2.1 1 ⟨"Id", "int", false⟩ "required" "int32" (by rfl),
   claim_C9.2.2.2 "RoW" [] [] (by rfl)⟩

/-- Counterexample to claim C2 as stated: with more than one comma between the
brackets the greedy regex splits at the LAST comma, not the first — for
`MAP<A,B,C>` the key text is `A,B` and the value text is `C`, not `A`/`B,C`. -/
theorem claim_C2_counterexample :
    parse_map_type "MAP<A,B,C>" = some ("A,B", "C") ∧
    parse_map_type "MAP<A,B,C>" ≠ some ("A", "B,C") := by
  constructor
  · decide
  · decide

lemma splitLastComma_none {l : List Char} (h : l.all (fun d => !(d == ',')) = true) :
    splitLastComma l = none := by
  induction l with
  | nil => rfl
  | cons c cs ih =>
    simp only [List.all_cons, Bool.and_eq_true] at h
    obtain ⟨h1, h2⟩ := h
    have hc : ¬(c = ',') := by
      intro he; rw [he] at h1; simp at h1
    unfold splitLastComma
    rw [ih h2]
    exact if_neg hc

lemma splitLastComma_append {y : List Char} (x : List Char)
    (hy : y.all (fun d => !(d == ',')) = true) (hne : y ≠ []) :
    splitLastComma (x ++ ',' :: y) = some (x, y) := by
  induction x with
  | nil =>
    show splitLastComma (',' :: y) = some ([], y)
    unfold splitLastComma
    rw [splitLastComma_none hy, if_pos rfl, if_neg hne]
  | cons a as ih =>
    show splitLastComma (a :: (as ++ ',' :: y)) = some (a :: as, y)
    unfold splitLastComma
    rw [ih]

lemma drop_len_append (l r : List Char) : (l ++ r).drop l.length = r := by
  induction l with
  | nil => rfl
  | cons a as ih => simp [ih]

lemma take_len_append (l r : List Char) : (l ++ r).take l.length = l := by
  induction l with
  | nil => rfl
  | cons a as ih => simp [ih]

lemma isPrefixOf_singleton_cons (a : Char) (l : List Char) :
    (([a]).isPrefixOf (a :: l)) = true := by
  simp [List.isPrefixOf]

/-- Claim C2, amended: the map regex splits the content between the outer angle
brackets at the LAST comma (the greedy first group), not the first — for an
input `MAP<x,y>` whose part after the last comma is non-empty and comma-free,
the key text is everything before that comma and the value text everything
after it (both uppercased and stripped). -/
theorem claim_C2 : ∀ (x y : String),
    (pyUpper x).data ≠ [] → (pyUpper y).data ≠ [] →
    noChar (pyUpper y) ',' = true →
    noNewline (pyUpper x) = true → noNewline (pyUpper y) = true →
    parse_map_type ("MAP<" ++ x ++ "," ++ y ++ ">") =
      some (pyStrip (pyUpper x), pyStrip (pyUpper y)) := by
  intro x y hxne hyne hyc hnx hny
  unfold noChar at hyc
  unfold noNewline at hnx hny
  have h0 : pyUpper ("MAP<" ++ x ++ "," ++ y ++ ">")
      = "MAP<" ++ pyUpper x ++ "," ++ pyUpper y ++ ">" := by
    rw [pyUpper_append, pyUpper_append, pyUpper_append, pyUpper_append,
      show pyUpper "MAP<" = "MAP<" from rfl, show pyUpper "," = "," from rfl,
      show pyUpper ">" = ">" from rfl]
  have hdata : (pyUpper ("MAP<" ++ x ++ "," ++ y ++ ">")).data
      = "MAP<".data ++ ((pyUpper x).data ++ (',' :: ((pyUpper y).data ++ ['>']))) := by
    rw [h0]
    simp [str_data_append, List.append_assoc]
  have hdata2 : (pyUpper ("MAP<" ++ x ++ "," ++ y ++ ">")).data
      = ("MAP<".data ++ ((pyUpper x).data ++ (',' :: (pyUpper y).data))) ++ ['>'] := by
    rw [hdata]
    simp [List.append_assoc]
  have hrev : (pyUpper ("MAP<" ++ x ++ "," ++ y ++ ">")).data.reverse
      = '>' :: ("MAP<".data ++ ((pyUpper x).data ++ (',' :: (pyUpper y).data))).reverse := by
    rw [hdata2, List.reverse_append]
    rfl
  have c1 : endsWithL (pyUpper ("MAP<" ++ x ++ "," ++ y ++ ">")) "\n" = false := by
    unfold endsWithL
    rw [hrev]
    exact isPrefixOf_cons_ne _ _ rfl
  have hchop : chopNl (pyUpper ("MAP<" ++ x ++ "," ++ y ++ ">"))
      = pyUpper ("MAP<" ++ x ++ "," ++ y ++ ">") := by
    unfold chopNl
    rw [c1]
    simp
  have c2 : startsWithL (pyUpper ("MAP<" ++ x ++ "," ++ y ++ ">")) "MAP<" = true := by
    unfold startsWithL
    rw [hdata]
    exact isPrefixOf_append _ _
  have c3 : endsWithL (pyUpper ("MAP<" ++ x ++ "," ++ y ++ ">")) ">" = true := by
    unfold endsWithL
    rw [hrev]
    exact isPrefixOf_singleton_cons '>' _
  have hd4 : (dropL (pyUpper ("MAP<" ++ x ++ "," ++ y ++ ">")) 4).data
      = ((pyUpper x).data ++ ',' :: (pyUpper y).data) ++ ['>'] := by
    show (pyUpper ("MAP<" ++ x ++ "," ++ y ++ ">")).data.drop 4 = _
    rw [hdata]
    have := drop_len_append "MAP<".data
      ((pyUpper x).data ++ (',' :: ((pyUpper y).data ++ ['>'])))
    rw [show ("MAP<".data.length) = 4 from rfl] at this
    rw [this]
    simp [List.append_assoc]
  have hmid : (dropRightL (dropL (pyUpper ("MAP<" ++ x ++ "," ++ y ++ ">")) 4) 1).data
      = (pyUpper x).data ++ ',' :: (pyUpper y).data := by
    have hlen : (dropL (pyUpper ("MAP<" ++ x ++ "," ++ y ++ ">")) 4).data.length - 1
        = ((pyUpper x).data ++ ',' :: (pyUpper y).data).length := by
      rw [hd4]; simp
    show (dropL (pyUpper ("MAP<" ++ x ++ "," ++ y ++ ">")) 4).data.take
        ((dropL (pyUpper ("MAP<" ++ x ++ "," ++ y ++ ">")) 4).data.length - 1) = _
    rw [hlen, hd4]
    exact take_len_append _ _
  have hnonl : noNewline (dropRightL (dropL (pyUpper ("MAP<" ++ x ++ "," ++ y ++ ">")) 4) 1)
      = true := by
    unfold noNewline
    rw [hmid]
    simp only [List.all_append, List.all_cons, hnx, hny, Bool.true_and, Bool.and_true]
    decide
  have hsplit : splitLastComma ((pyUpper x).data ++ ',' :: (pyUpper y).data)
      = some ((pyUpper x).data, (pyUpper y).data) :=
    splitLastComma_append _ hyc hyne
  unfold parse_map_type
  rw [hchop, if_pos c2, if_pos c3, if_pos hnonl, hmid, hsplit]
  show (if (pyUpper x).data = [] then none
      else some (pyStrip ⟨(pyUpper x).data⟩, pyStrip ⟨(pyUpper y).data⟩)) =
    some (pyStrip (pyUpper x), pyStrip (pyUpper y))
  rw [if_neg hxne,
    show (⟨(pyUpper x).data⟩ : String) = pyUpper x from strExt rfl,
    show (⟨(pyUpper y).data⟩ : String) = pyUpper y from strExt rfl]

/-- Witness for the amended C2 at the counterexample input `MAP<A,B,C>`. -/
theorem claim_C2_witness :
    parse_map_type ("MAP<" ++ "A,B" ++ "," ++ "C" ++ ">") =
      some (pyStrip (pyUpper "A,B"), pyStrip (pyUpper "C")) :=
  claim_C2 "A,B" "C" (by decide) (by decide) (by decide) (by decide) (by decide)

/-- Claim C5: a map whose key and value both resolve in the scalar table maps,
for both values of `nullable`, to modifier NONE (the empty modifier string) and
target `map<mappedK, mappedV>` with a space after the comma; the emitter renders
such a field with no leading modifier token. -/
theorem claim_C5 : ∀ (s k v kt vt : String) (b : Bool) (i : Nat) (n : String),
    parse_map_type s = some (k, v) →
    lookupTable type_mapping (pyUpper k) = some kt →
    lookupTable type_mapping (pyUpper v) = some vt →
    get_proto_field_info s b = .ok ("", "map<" ++ kt ++ ", " ++ vt ++ ">") ∧
    fieldLine i ⟨n, s, b⟩ =
      .ok ("    " ++ ("map<" ++ kt ++ ", " ++ vt ++ ">") ++ " " ++ n ++ " = "
        ++ toString i ++ ";") := by
  intro s k v kt vt b i n hm hk hv2
  have h1 : get_proto_field_info s b = .ok ("", "map<" ++ kt ++ ", " ++ vt ++ ">") := by
    rw [get_map_branch b hm, hk, hv2]
  refine ⟨h1, ?_⟩
  unfold fieldLine
  dsimp only
  rw [h1]
  simp [renderField]

/-- Witness for C5 at the claim's own instance `MAP<STRING,INT>`, rendered at
tag 3 with field name `meta`. -/
theorem claim_C5_witness :
    get_proto_field_info "MAP<STRING,INT>" false = .ok ("", "map<string, int32>") ∧
    fieldLine 3 ⟨"meta", "MAP<STRING,INT>", false⟩ =
      .ok "    map<string, int32> meta = 3;" :=
  claim_C5 "MAP<STRING,INT>" "STRING" "INT" "string" "int32" false 3 "meta"
    (by decide) (by decide) (by decide)

/-! ### Emitter lemmas -/

lemma fieldLines_of_mapColumns : ∀ (cols : List Column) (ds : List (String × String))
    (k : Nat), mapColumns cols = .ok ds → fieldLines cols k = .ok (renderAll cols ds k) := by
  intro cols
  induction cols with
  | nil =>
    intro ds k h
    unfold mapColumns at h
    cases h
    rfl
  | cons c cs ih =>
    intro ds k h
    unfold mapColumns at h
    cases hg : get_proto_field_info c.type_text c.nullable with
    | error e =>
      simp only [hg] at h
      exact Except.noConfusion h
    | ok d =>
      simp only [hg] at h
      cases hm : mapColumns cs with
      | error e =>
        simp only [hm] at h
        exact Except.noConfusion h
      | ok ds' =>
        simp only [hm] at h
        cases h
        obtain ⟨m, t⟩ := d
        unfold fieldLines fieldLine
        simp only [hg, ih ds' (k + 1) hm, renderAll]

lemma mapColumns_length : ∀ (cols : List Column) (ds : List (String × String)),
    mapColumns cols = .ok ds → ds.length = cols.length := by
  intro cols
  induction cols with
  | nil =>
    intro ds h
    unfold mapColumns at h
    cases h
    rfl
  | cons c cs ih =>
    intro ds h
    unfold mapColumns at h
    cases hg : get_proto_field_info c.type_text c.nullable with
    | error e =>
      simp only [hg] at h
      exact Except.noConfusion h
    | ok d =>
      simp only [hg] at h
      cases hm : mapColumns cs with
      | error e =>
        simp only [hm] at h
        exact Except.noConfusion h
      | ok ds' =>
        simp only [hm] at h
        cases h
        simp [ih ds' hm]

lemma renderAll_length : ∀ (cols : List Column) (ds : List (String × String)) (k : Nat),
    ds.length = cols.length → (renderAll cols ds k).length = cols.length := by
  intro cols
  induction cols with
  | nil => intro ds k _; rfl
  | cons c cs ih =>
    intro ds k h
    cases ds with
    | nil => simp at h
    | cons d ds' =>
      simp only [List.length_cons] at h
      have h' : ds'.length = cs.length := by omega
      show (renderField k c.name d.1 d.2 :: renderAll cs ds' (k + 1)).length = (c :: cs).length
      simp [ih ds' (k + 1) h']

lemma renderAll_get : ∀ (cols : List Column) (ds : List (String × String)) (k i : Nat)
    (c : Column) (d : String × String),
    cols[i]? = some c → ds[i]? = some d →
    (renderAll cols ds k)[i]? = some (renderField (k + i) c.name d.1 d.2) := by
  intro cols
  induction cols with
  | nil => intro ds k i c d hc hd; simp at hc
  | cons c0 cs ih =>
    intro ds k i c d hc hd
    cases ds with
    | nil => simp at hd
    | cons d0 ds' =>
      cases i with
      | zero =>
        simp only [List.getElem?_cons_zero, Option.some.injEq] at hc hd
        show (renderField k c0.name d0.1 d0.2 :: renderAll cs ds' (k + 1))[0]? =
          some (renderField (k + 0) c.name d.1 d.2)
        rw [hc, hd]
        simp
      | succ j =>
        simp only [List.getElem?_cons_succ] at hc hd
        have hj := ih ds' (k + 1) j c d hc hd
        show (renderField k c0.name d0.1 d0.2 :: renderAll cs ds' (k + 1))[j + 1]? =
          some (renderField (k + (j + 1)) c.name d.1 d.2)
        rw [List.getElem?_cons_succ, hj, show (k + 1) + j = k + (j + 1) from by omega]

lemma joinLines_append_blank : ∀ (ls : List String), joinLines (ls ++ [""]) = concatNl ls := by
  intro ls
  induction ls with
  | nil => rfl
  | cons l ls ih =>
    cases ls with
    | nil => rfl
    | cons l' ls' =>
      show joinLines (l :: (l' :: (ls' ++ [""]))) = concatNl (l :: l' :: ls')
      have ih' : joinLines (l' :: (ls' ++ [""])) = concatNl (l' :: ls') := ih
      rw [show joinLines (l :: (l' :: (ls' ++ [""])))
          = l ++ "\n" ++ joinLines (l' :: (ls' ++ [""])) from rfl, ih']
      rfl

/-- Claim C6: for every message name and every list of mappable columns (the
empty list included) the emitted text is exactly the header line, a blank line,
the `message` opener, one field line per column in input order with tag equal to
its 1-based position, the closing brace, and a trailing newline — every line
terminated by a newline (`concatNl`). -/
theorem claim_C6 : ∀ (name : String) (cols : List Column) (ds : List (String × String)),
    mapColumns cols = .ok ds →
    generate_proto_file name cols =
      .ok (concatNl (["syntax = \"proto2\";", "", "message " ++ name ++ " \x7b"]
        ++ renderAll cols ds 1 ++ ["\x7d"])) ∧
    (renderAll cols ds 1).length = cols.length ∧
    ∀ (i : Nat) (c : Column) (d : String × String),
      cols[i]? = some c → ds[i]? = some d →
      (renderAll cols ds 1)[i]? = some (renderField (i + 1) c.name d.1 d.2) := by
  intro name cols ds h
  refine ⟨?_, renderAll_length cols ds 1 (mapColumns_length cols ds h), ?_⟩
  · unfold generate_proto_file
    simp only [fieldLines_of_mapColumns cols ds 1 h]
    rw [show (["syntax = \"proto2\";", "", "message " ++ name ++ " \x7b"]
        ++ renderAll cols ds 1 ++ ["\x7d", ""])
        = (["syntax = \"proto2\";", "", "message " ++ name ++ " \x7b"]
        ++ renderAll cols ds 1 ++ ["\x7d"]) ++ [""] from by simp,
      joinLines_append_blank]
  · intro i c d hc hd
    rw [renderAll_get cols ds 1 i c d hc hd, show 1 + i = i + 1 from by omega]

/-- Witness for C6: the spec's end-to-end example, with the exact output text. -/
theorem claim_C6_witness :
    generate_proto_file "Row"
      [⟨"id", "INT", false⟩, ⟨"tags", "ARRAY<STRING>", true⟩,
       ⟨"meta", "MAP<STRING,STRING>", false⟩] =
      .ok "syntax = \"proto2\";\n\nmessage Row \x7b\n    required int32 id = 1;\n    repeated string tags = 2;\n    map<string, string> meta = 3;\n\x7d\n" ∧
    (renderAll
      [⟨"id", "INT", false⟩, ⟨"tags", "ARRAY<STRING>", true⟩,
       ⟨"meta", "MAP<STRING,STRING>", false⟩]
      [("required", "int32"), ("repeated", "string"), ("", "map<string, string>")]
      1).length = 3 :=
  ⟨(claim_C6 "Row"
      [⟨"id", "INT", false⟩, ⟨"tags", "ARRAY<STRING>", true⟩,
       ⟨"meta", "MAP<STRING,STRING>", false⟩]
      [("required", "int32"), ("repeated", "string"), ("", "map<string, string>")]
      rfl).1,
   (claim_C6 "Row"
      [⟨"id", "INT", false⟩, ⟨"tags", "ARRAY<STRING>", true⟩,
       ⟨"meta", "MAP<STRING,STRING>", false⟩]
      [("required", "int32"), ("repeated", "string"), ("", "map<string, string>")]
      rfl).2.1⟩

lemma fieldLines_error_of_mem : ∀ (cols : List Column) (k : Nat),
    (∃ c, c ∈ cols ∧ ∃ e, get_proto_field_info c.type_text c.nullable = .error e) →
    ∃ e, fieldLines cols k = .error e := by
  intro cols
  induction cols with
  | nil =>
    intro k h
    obtain ⟨c, hc, _⟩ := h
    simp at hc
  | cons c0 cs ih =>
    intro k h
    cases hg : get_proto_field_info c0.type_text c0.nullable with
    | error e =>
      refine ⟨e, ?_⟩
      unfold fieldLines fieldLine
      simp only [hg]
    | ok d =>
      obtain ⟨c, hc, e, he⟩ := h
      rcases List.mem_cons.mp hc with rfl | hmem
      · rw [hg] at he
        exact Except.noConfusion he
      · obtain ⟨e', hfe⟩ := ih (k + 1) ⟨c, hmem, e, he⟩
        refine ⟨e', ?_⟩
        obtain ⟨m, t⟩ := d
        unfold fieldLines fieldLine
        simp only [hg, hfe]

lemma mapColumns_error_fieldLines : ∀ (cols : List Column) (k : Nat) (e : String),
    mapColumns cols = .error e → fieldLines cols k = .error e := by
  intro cols
  induction cols with
  | nil =>
    intro k e h
    unfold mapColumns at h
    exact Except.noConfusion h
  | cons c cs ih =>
    intro k e h
    unfold mapColumns at h
    cases hg : get_proto_field_info c.type_text c.nullable with
    | error e0 =>
      simp only [hg] at h
      cases h
      unfold fieldLines fieldLine
      simp only [hg]
    | ok d =>
      simp only [hg] at h
      cases hm : mapColumns cs with
      | error e0 =>
        simp only [hm] at h
        cases h
        obtain ⟨m, t⟩ := d
        unfold fieldLines fieldLine
        simp only [hg, ih (k + 1) e hm]
      | ok ds' =>
        simp only [hm] at h
        exact Except.noConfusion h

/-- Claim C8: if any column fails to map, the whole generation aborts with an
`UnsupportedType` error, no output text exists, and the error produced is the
one the (first failing) column mapping raised — every column is mapped before
any text is assembled for writing. -/
theorem claim_C8 : ∀ (name : String) (cols : List Column),
    (∃ c, c ∈ cols ∧ ∃ e, get_proto_field_info c.type_text c.nullable = .error e) →
    (∃ e, generate_proto_file name cols = .error e) ∧
    (∀ out, generate_proto_file name cols ≠ .ok out) ∧
    (∀ e, mapColumns cols = .error e → generate_proto_file name cols = .error e) := by
  intro name cols h
  obtain ⟨e', hfe⟩ := fieldLines_error_of_mem cols 1 h
  have hg : generate_proto_file name cols = .error e' := by
    unfold generate_proto_file
    simp only [hfe]
  refine ⟨⟨e', hg⟩, ?_, ?_⟩
  · intro out hout
    rw [hg] at hout
    exact Except.noConfusion hout
  · intro e he
    unfold generate_proto_file
    simp only [mapColumns_error_fieldLines cols 1 e he]

/-- Witness for C8: a failing second column aborts the whole generation with
its error; the preceding good column produces no partial output. -/
theorem claim_C8_witness :
    generate_proto_file "T" [⟨"id", "INT", false⟩, ⟨"x", "DECIMAL(10,2)", false⟩] =
      .error "Unsupported column type: DECIMAL(10,2)" :=
  (claim_C8 "T" [⟨"id", "INT", false⟩, ⟨"x", "DECIMAL(10,2)", false⟩]
    ⟨⟨"x", "DECIMAL(10,2)", false⟩, by decide,
     "Unsupported column type: DECIMAL(10,2)", rfl⟩).2.2
    "Unsupported column type: DECIMAL(10,2)" rfl
